import Mathlib

/-!
Shallow embedding of the `typescript-validators` library (`src/index.ts`).

JavaScript runtime values are modelled by the inductive type `JSValue`:
numbers as `Int` (the claims under study involve no floating-point
behaviour), strings as `String`, symbols by a numeric identity, plain
objects as an association list of own enumerable string-keyed properties
in insertion order, and arrays as a list of elements.

Each validator `$f` of the source becomes a Lean function `«$f»` on
`JSValue`; loops with a `failed` flag are transcribed as explicit
recursive loop functions.
-/

set_option linter.unusedVariables false

inductive JSValue : Type where
  | vNull : JSValue
  | vUndefined : JSValue
  | vBool : Bool → JSValue
  | vNum : Int → JSValue
  | vStr : String → JSValue
  | vSymbol : Nat → JSValue
  | vBigInt : Int → JSValue
  | vObject : List (String × JSValue) → JSValue
  | vArray : List JSValue → JSValue
deriving Repr

/-- The JavaScript `typeof` operator on the modelled values.  Note
`typeof null` is `"object"`, and arrays are of type `"object"` as well. -/
def typeof : JSValue → String
  | .vNull => "object"
  | .vUndefined => "undefined"
  | .vBool _ => "boolean"
  | .vNum _ => "number"
  | .vStr _ => "string"
  | .vSymbol _ => "symbol"
  | .vBigInt _ => "bigint"
  | .vObject _ => "object"
  | .vArray _ => "object"

/-- Strict equality with `null` (`val === null`). -/
def isNull : JSValue → Bool
  | .vNull => true
  | _ => false

/-- Strict equality with `undefined` (`val === undefined`). -/
def isUndefined : JSValue → Bool
  | .vUndefined => true
  | _ => false

/-- Loose equality with `null` (`val == null`): true exactly for `null`
and `undefined`. -/
def looseEqNull (v : JSValue) : Bool :=
  isNull v || isUndefined v

/-- A validator is a predicate on runtime values (`(val: unknown) => boolean`);
the type-narrowing aspect of `Validator<T>` is compile-time only. -/
def Validator : Type := JSValue → Bool

/-- Property access `val[key]` restricted to own properties: association-list
lookup for objects, decimal-index lookup for arrays, `undefined` when the
key is absent. -/
def getProp (val : JSValue) (key : String) : JSValue :=
  match val with
  | .vObject fields => (fields.lookup key).getD .vUndefined
  | .vArray elems =>
    match key.toNat? with
    | some i => if toString i = key then elems.getD i .vUndefined else .vUndefined
    | none => .vUndefined
  | _ => .vUndefined

/-- Helper for `Object.entries` on arrays: entries `(toString i, elem)`
starting at index `i`. -/
def arrayEntriesFrom (i : Nat) : List JSValue → List (String × JSValue)
  | [] => []
  | e :: rest => (toString i, e) :: arrayEntriesFrom (i + 1) rest

/-- The own enumerable string-keyed entries of a value, in order
(`Object.entries`).  Primitives have none. -/
def objectEntries : JSValue → List (String × JSValue)
  | .vObject fields => fields
  | .vArray elems => arrayEntriesFrom 0 elems
  | _ => []

/-- The own enumerable string keys of a value (`Object.keys`). -/
def objectKeys (v : JSValue) : List String :=
  (objectEntries v).map Prod.fst

/-- Source: `$number` — `typeof val === "number"`. -/
def «$number» : Validator := fun val => typeof val == "number"

/-- Source: `$string` — `typeof val === "string"`. -/
def «$string» : Validator := fun val => typeof val == "string"

/-- Source: `$boolean` — `typeof val === "boolean"`. -/
def «$boolean» : Validator := fun val => typeof val == "boolean"

/-- Source: `$symbol` — `typeof val === "symbol"`. -/
def «$symbol» : Validator := fun val => typeof val == "symbol"

/-- Source: `$bigint` — `typeof val === "bigint"`. -/
def «$bigint» : Validator := fun val => typeof val == "bigint"

/-- Source: `$null` — `val === null`. -/
def «$null» : Validator := fun val => isNull val

/-- Source: `$undefined` — `val === undefined`. -/
def «$undefined» : Validator := fun val => isUndefined val

/-- Source: `$any` — always true. -/
def «$any» : Validator := fun _ => true

/-- Source: `$optional(validator)` — `val == null || validator(val)`. -/
def «$optional» (validator : Validator) : Validator := fun val =>
  looseEqNull val || validator val

/-- Source: `$nullable(validator)` — `$null(val) || validator(val)`. -/
def «$nullable» (validator : Validator) : Validator := fun val =>
  «$null» val || validator val

/-- Loop body of `$union`: return true at the first accepting validator,
false when the list is exhausted. -/
def unionLoop (val : JSValue) : List Validator → Bool
  | [] => false
  | validator :: rest => if validator val then true else unionLoop val rest

/-- Source: `$union(validators)` — `for` loop returning true on the first
validator that accepts, false otherwise. -/
def «$union» (validators : List Validator) : Validator := fun val =>
  unionLoop val validators

/-- Loop body of `$intersection`: run every validator, setting a `failed`
flag on every rejection (no short-circuit). -/
def interLoop (val : JSValue) : List Validator → Bool → Bool
  | [], failed => failed
  | validator :: rest, failed =>
    interLoop val rest (if !(validator val) then true else failed)

/-- Source: `$intersection(validators)` — run all validators, return the
negated `failed` flag. -/
def «$intersection» (validators : List Validator) : Validator := fun val =>
  !(interLoop val validators false)

/-- The ASCII whitespace characters recognised by JavaScript string
trimming and by the regex class `\s` (the claims involve only ASCII
input, so the Unicode space characters are not modelled). -/
def jsWhitespace (c : Char) : Bool :=
  c == ' ' || c == '\t' || c == '\n' || c == '\r' ||
    c == Char.ofNat 11 || c == Char.ofNat 12

/-- Decimal digit `[0-9]`. -/
def isDigit10 (c : Char) : Bool := '0' ≤ c && c ≤ '9'

/-- Hexadecimal digit, any case (accepted by `parseInt` with the `0x`
prefix). -/
def isHexDigit16 (c : Char) : Bool :=
  isDigit10 c || ('a' ≤ c && c ≤ 'f') || ('A' ≤ c && c ≤ 'F')

/-- Numeric value of a hexadecimal digit. -/
def hexDigitVal (c : Char) : Nat :=
  if isDigit10 c then c.toNat - '0'.toNat
  else if 'a' ≤ c && c ≤ 'f' then c.toNat - 'a'.toNat + 10
  else if 'A' ≤ c && c ≤ 'F' then c.toNat - 'A'.toNat + 10
  else 0

/-- Value of a digit run in the given base. -/
def digitsVal (base : Nat) (ds : List Char) : Nat :=
  ds.foldl (fun acc c => acc * base + hexDigitVal c) 0

/-- Strip one optional leading sign, reporting whether it was `-`. -/
def stripSign : List Char → Bool × List Char
  | '-' :: rest => (true, rest)
  | '+' :: rest => (false, rest)
  | l => (false, l)

/-- Core of ECMAScript `parseInt` after whitespace and sign handling:
a `0x`/`0X` prefix switches to base 16; the longest run of digits of the
base is converted; an empty run yields `none` (NaN). -/
def parseIntCore (l : List Char) : Option Nat :=
  match l with
  | '0' :: 'x' :: rest =>
    let ds := rest.takeWhile isHexDigit16
    if ds.isEmpty then none else some (digitsVal 16 ds)
  | '0' :: 'X' :: rest =>
    let ds := rest.takeWhile isHexDigit16
    if ds.isEmpty then none else some (digitsVal 16 ds)
  | _ =>
    let ds := l.takeWhile isDigit10
    if ds.isEmpty then none else some (digitsVal 10 ds)

/-- ECMAScript `parseInt(s)` with no radix argument: skip leading
whitespace, take an optional sign, then parse a leading digit run;
`none` models the NaN result. -/
def parseIntJS (s : String) : Option Int :=
  let l := s.toList.dropWhile jsWhitespace
  let (neg, m) := stripSign l
  (parseIntCore m).map fun n => if neg then -(n : Int) else (n : Int)

/-- Source: `$numericString` — a string such that
`!Number.isNaN(parseInt(val))`. -/
def «$numericString» : Validator := fun val =>
  match val with
  | .vStr s => (parseIntJS s).isSome
  | _ => false

/-- Character class `[^\s@]` of the email pattern. -/
def emailClassChar (c : Char) : Bool :=
  !(jsWhitespace c) && c != '@'

/-- Full-string match of the email pattern `/^[^\s@]+@[^\s@]+\.[^\s@]+$/`
(the pattern is anchored at both ends in the source).  With backtracking,
the string matches iff some position `i` holds the literal `@`, some later
position `j` holds the literal `.`, the three residual segments are
nonempty, and every other character lies in `[^\s@]` (a `.` does, so extra
dots are fine). -/
def emailCore (s : String) : Bool :=
  let l := s.toList
  let n := l.length
  (List.range n).any fun i =>
    (List.range n).any fun j =>
      l.getD i ' ' == '@' && l.getD j ' ' == '.' &&
        1 ≤ i && i + 2 ≤ j && j + 2 ≤ n &&
        (List.range n).all fun p => p == i || emailClassChar (l.getD p ' ')

/-- Source: `$email = $regexp(/^[^\s@]+@[^\s@]+\.[^\s@]+$/)` — a string
matching the anchored email pattern. -/
def «$email» : Validator := fun val =>
  match val with
  | .vStr s => emailCore s
  | _ => false

/-- Lowercase hexadecimal digit `[0-9a-f]` of the UUID pattern. -/
def lowerHex (c : Char) : Bool :=
  isDigit10 c || ('a' ≤ c && c ≤ 'f')

/-- Match of the UUID pattern
`/([0-9a-f]{8})-([0-9a-f]{4})-([0-9a-f]{4})-([0-9a-f]{4})-([0-9a-f]{12})/`
at the head of the character list: 36 positions, dashes at offsets
8, 13, 18 and 23, lowercase hex elsewhere; trailing characters are
unconstrained. -/
def uuidAt (l : List Char) : Bool :=
  36 ≤ l.length &&
    (List.range 36).all fun p =>
      if p == 8 || p == 13 || p == 18 || p == 23 then l.getD p ' ' == '-'
      else lowerHex (l.getD p ' ')

/-- Unanchored search for the UUID pattern: try every start position
(the source pattern has no `^`/`$`). -/
def uuidSearch : List Char → Bool
  | [] => false
  | l@(_ :: rest) => uuidAt l || uuidSearch rest

/-- Source: `$uuid = $regexp(/([0-9a-f]{8})-…-([0-9a-f]{12})/)` — a string
containing the UUID shape anywhere. -/
def «$uuid» : Validator := fun val =>
  match val with
  | .vStr s => uuidSearch s.toList
  | _ => false

/-- Characters allowed after the first one in a URL scheme. -/
def schemeTailChar (c : Char) : Bool :=
  c.isAlphanum || c == '+' || c == '-' || c == '.'

/-- Modelled from the spec: the host URL-parsing primitive (`new URL`),
absent from the repository sources, "delegates to the host's URL-parsing
primitive inside a failure boundary"; it throws on parse failure and
accepts scheme-only forms such as `ftp://`.  Simplified to requiring a
valid scheme (a letter followed by letters, digits, `+`, `-`, `.`)
terminated by a colon. -/
def parseURL (s : String) : Except String Unit :=
  match s.toList with
  | [] => .error "Invalid URL"
  | c :: rest =>
    if c.isAlpha && ((rest.dropWhile schemeTailChar).head? == some ':') then
      .ok ()
    else .error "Invalid URL"

/-- Source: `$url` — non-strings are false; otherwise `new URL(val)` is
attempted and any parse exception is caught and mapped to `false`. -/
def «$url» : Validator := fun val =>
  match val with
  | .vStr s =>
    match parseURL s with
    | .ok _ => true
    | .error _ => false
  | _ => false

/-- Source: `$enum(enums)` — a string contained in the closed list. -/
def «$enum» (enums : List String) : Validator := fun val =>
  match val with
  | .vStr s => enums.contains s
  | _ => false

/-- The scalar constants accepted by `$const`
(`number | string | boolean | undefined | void | symbol`). -/
inductive JSConst : Type where
  | num : Int → JSConst
  | str : String → JSConst
  | bool : Bool → JSConst
  | undef : JSConst
  | sym : Nat → JSConst

/-- Strict equality `val === def` between a value and a scalar constant
(symbols compare by identity; the `Int` number model has no NaN). -/
def constEq (d : JSConst) (val : JSValue) : Bool :=
  match d, val with
  | .num n, .vNum m => n == m
  | .str s, .vStr t => s == t
  | .bool b, .vBool c => b == c
  | .undef, .vUndefined => true
  | .sym i, .vSymbol j => i == j
  | _, _ => false

/-- Source: `$const(def)` — strict equality with the constant. -/
def «$const» (d : JSConst) : Validator := fun val => constEq d val

/-- Source: `$numberRange({min, max})` — kind-number and within the given
inclusive bounds; an absent bound (`!$number(min)`) is unconstrained. -/
def «$numberRange» (min max : Option Int) : Validator := fun val =>
  match val with
  | .vNum n =>
    (match min with | none => true | some m => decide (m ≤ n)) &&
      (match max with | none => true | some m => decide (n ≤ m))
  | _ => false

/-- Loop body of `$object`: iterate over the shape entries, skipping the
key `"__proto__"` entirely (its validator is not applied and it is not
removed from `unchecked`); otherwise apply the entry's validator to the
property (missing properties read as `undefined`), record failures, and
delete the key from the `unchecked` set. -/
def objectLoop (x : JSValue) :
    List (String × Validator) → Bool → List String → Bool × List String
  | [], failed, unchecked => (failed, unchecked)
  | (key, validator) :: rest, failed, unchecked =>
    if key = "__proto__" then objectLoop x rest failed unchecked
    else
      objectLoop x rest
        (if !(validator (getProp x key)) then true else failed)
        (unchecked.erase key)

/-- Source: `$object(validatorMap, exact)` — reject non-objects and
loosely-null values; run the shape loop starting from the set of own keys;
reject on any failure; under `exact` additionally require the `unchecked`
set to be empty. -/
def «$object» (validatorMap : List (String × Validator)) (exact : Bool) :
    Validator := fun val =>
  if typeof val != "object" || looseEqNull val then false
  else
    let st := objectLoop val validatorMap false (objectKeys val)
    if st.1 then false
    else if exact then st.2.length == 0
    else true

/-- Loop body of `$array`: run the child on every element, recording
failures without short-circuiting. -/
def arrayLoop (child : Validator) : List JSValue → Bool → Bool
  | [], failed => failed
  | value :: rest, failed =>
    arrayLoop child rest (if !(child value) then true else failed)

/-- Source: `$array(child)` — arrays only; every element must satisfy the
child validator. -/
def «$array» (child : Validator) : Validator := fun val =>
  match val with
  | .vArray elems => !(arrayLoop child elems false)
  | _ => false

/-- Lower length bound `min === undefined || val.length >= min`
(inclusive, unconstrained when absent). -/
def minOkLen (min : Option Int) (len : Nat) : Bool :=
  match min with
  | none => true
  | some m => decide (m ≤ (len : Int))

/-- Upper length bound `max === undefined || val.length <= max`
(inclusive, unconstrained when absent). -/
def maxOkLen (max : Option Int) (len : Nat) : Bool :=
  match max with
  | none => true
  | some m => decide ((len : Int) ≤ m)

/-- Source: `$arrayLength({max, min, child})` — the plain array check plus
inclusive length bounds, each skipped when `undefined`; `val.length` is
only read on arrays (after the array check has passed). -/
def «$arrayLength» (min max : Option Int) (child : Validator) : Validator :=
  fun val =>
    «$array» child val &&
      (match val with
       | .vArray elems => minOkLen min elems.length
       | _ => true) &&
      (match val with
       | .vArray elems => maxOkLen max elems.length
       | _ => true)

/-- Loop body of `$record`: iterate over the own entries, skipping the key
`"__proto__"` entirely (neither the key-kind check nor the value check
runs on it); otherwise check the key with the key validator and the value
with the value validator, recording failures. -/
def recordLoop (keyValidator valueValidator : Validator) :
    List (String × JSValue) → Bool → Bool
  | [], failed => failed
  | (key, value) :: rest, failed =>
    if key = "__proto__" then recordLoop keyValidator valueValidator rest failed
    else
      let failedK := if !(keyValidator (.vStr key)) then true else failed
      let failedV := if !(valueValidator value) then true else failedK
      recordLoop keyValidator valueValidator rest failedV

/-- Source: `$record(valueValidator)` — reject non-objects and strict
`null`; every own entry's key must pass `$union([$string, $number,
$symbol])` and its value the value validator. -/
def «$record» (valueValidator : Validator) : Validator := fun val =>
  if typeof val != "object" || isNull val then false
  else
    !(recordLoop («$union» [«$string», «$number», «$symbol»]) valueValidator
        (objectEntries val) false)

/-- Loop body of `$tuple`: positionally apply each child validator to the
element at the same index, recording failures. -/
def tupleLoop : List (Validator × JSValue) → Bool → Bool
  | [], failed => failed
  | (validator, value) :: rest, failed =>
    tupleLoop rest (if !(validator value) then true else failed)

/-- Source: `$tuple(children)` — arrays only, with length exactly the
number of children; element `i` must satisfy child `i`. -/
def «$tuple» (children : List Validator) : Validator := fun val =>
  match val with
  | .vArray elems =>
    if elems.length ≠ children.length then false
    else !(tupleLoop (children.zip elems) false)
  | _ => false

/-!
Deep embedding of the validator language: one constructor per exported
validator or factory of `src/index.ts` (the generic `$regexp` factory is
represented by its two library instantiations `email` and `uuid`, since
an arbitrary host regex object has no shallow model).
-/

mutual
inductive VSpec : Type where
  | const : JSConst → VSpec
  | number : VSpec
  | numberRange : Option Int → Option Int → VSpec
  | string : VSpec
  | numericString : VSpec
  | null : VSpec
  | undef : VSpec
  | any : VSpec
  | optional : VSpec → VSpec
  | nullable : VSpec → VSpec
  | email : VSpec
  | uuid : VSpec
  | url : VSpec
  | symbol : VSpec
  | bigint : VSpec
  | boolean : VSpec
  | enum : List String → VSpec
  | intersection : VList → VSpec
  | union : VList → VSpec
  | object : VShape → Bool → VSpec
  | array : VSpec → VSpec
  | arrayLength : Option Int → Option Int → VSpec → VSpec
  | record : VSpec → VSpec
  | tuple : VList → VSpec

inductive VList : Type where
  | nil : VList
  | cons : VSpec → VList → VList

inductive VShape : Type where
  | nil : VShape
  | cons : String → VSpec → VShape → VShape
end

mutual
/-- Pure evaluation of a deeply-embedded validator: each case applies the
corresponding shallow definition to the evaluated children. -/
def eval : VSpec → JSValue → Bool
  | .const d, x => «$const» d x
  | .number, x => «$number» x
  | .numberRange mn mx, x => «$numberRange» mn mx x
  | .string, x => «$string» x
  | .numericString, x => «$numericString» x
  | .null, x => «$null» x
  | .undef, x => «$undefined» x
  | .any, x => «$any» x
  | .optional v, x => looseEqNull x || eval v x
  | .nullable v, x => «$null» x || eval v x
  | .email, x => «$email» x
  | .uuid, x => «$uuid» x
  | .url, x => «$url» x
  | .symbol, x => «$symbol» x
  | .bigint, x => «$bigint» x
  | .boolean, x => «$boolean» x
  | .enum es, x => «$enum» es x
  | .intersection vs, x => «$intersection» (evalList vs) x
  | .union vs, x => «$union» (evalList vs) x
  | .object sh ex, x => «$object» (evalShape sh) ex x
  | .array v, x => «$array» (eval v) x
  | .arrayLength mn mx v, x => «$arrayLength» mn mx (eval v) x
  | .record v, x => «$record» (eval v) x
  | .tuple vs, x => «$tuple» (evalList vs) x

/-- Children of a `union`/`intersection`/`tuple` node as shallow
validators. -/
def evalList : VList → List Validator
  | .nil => []
  | .cons v rest => (fun x => eval v x) :: evalList rest

/-- Children of an `object` node as a shallow shape. -/
def evalShape : VShape → List (String × Validator)
  | .nil => []
  | .cons k v rest => (k, fun x => eval v x) :: evalShape rest
end

/-- Number of children of a `VList`. -/
def vlen : VList → Nat
  | .nil => 0
  | .cons _ rest => vlen rest + 1

/-!
Exception-channel semantics: the same evaluation with an explicit
`Except` error channel, in which an uncaught host exception would appear
as `.error`.  A child validator's error propagates to the caller
(JavaScript exception propagation); the single `try`/`catch` of the
library is the `url` case, which converts the parse error of the host URL
primitive into the result `false`.
-/

mutual
def evalE : VSpec → JSValue → Except String Bool
  | .const d, x => .ok («$const» d x)
  | .number, x => .ok («$number» x)
  | .numberRange mn mx, x => .ok («$numberRange» mn mx x)
  | .string, x => .ok («$string» x)
  | .numericString, x => .ok («$numericString» x)
  | .null, x => .ok («$null» x)
  | .undef, x => .ok («$undefined» x)
  | .any, x => .ok («$any» x)
  | .optional v, x =>
    if looseEqNull x then .ok true else evalE v x
  | .nullable v, x =>
    if «$null» x then .ok true else evalE v x
  | .email, x => .ok («$email» x)
  | .uuid, x => .ok («$uuid» x)
  | .url, x =>
    match x with
    | .vStr s =>
      match parseURL s with
      | .ok _ => .ok true
      | .error _ => .ok false
    | _ => .ok false
  | .symbol, x => .ok («$symbol» x)
  | .bigint, x => .ok («$bigint» x)
  | .boolean, x => .ok («$boolean» x)
  | .enum es, x => .ok («$enum» es x)
  | .intersection vs, x =>
    match interLoopE vs x false with
    | .error e => .error e
    | .ok failed => .ok (!failed)
  | .union vs, x => unionLoopE vs x
  | .object sh ex, x =>
    if typeof x != "object" || looseEqNull x then .ok false
    else
      match objectLoopE x sh false (objectKeys x) with
      | .error e => .error e
      | .ok st =>
        if st.1 then .ok false
        else if ex then .ok (st.2.length == 0)
        else .ok true
  | .array v, x =>
    match x with
    | .vArray elems =>
      match arrayLoopE v elems false with
      | .error e => .error e
      | .ok failed => .ok (!failed)
    | _ => .ok false
  | .arrayLength mn mx v, x =>
    match x with
    | .vArray elems =>
      match arrayLoopE v elems false with
      | .error e => .error e
      | .ok failed =>
        .ok (!failed && minOkLen mn elems.length && maxOkLen mx elems.length)
    | _ => .ok false
  | .record v, x =>
    if typeof x != "object" || isNull x then .ok false
    else
      match recordLoopE v (objectEntries x) false with
      | .error e => .error e
      | .ok failed => .ok (!failed)
  | .tuple vs, x =>
    match x with
    | .vArray elems =>
      if elems.length ≠ vlen vs then .ok false
      else
        match tupleLoopE vs elems false with
        | .error e => .error e
        | .ok failed => .ok (!failed)
    | _ => .ok false

def unionLoopE : VList → JSValue → Except String Bool
  | .nil, _ => .ok false
  | .cons v rest, x =>
    match evalE v x with
    | .error e => .error e
    | .ok b => if b then .ok true else unionLoopE rest x

def interLoopE : VList → JSValue → Bool → Except String Bool
  | .nil, _, failed => .ok failed
  | .cons v rest, x, failed =>
    match evalE v x with
    | .error e => .error e
    | .ok b => interLoopE rest x (if !b then true else failed)

def objectLoopE (x : JSValue) :
    VShape → Bool → List String → Except String (Bool × List String)
  | .nil, failed, unchecked => .ok (failed, unchecked)
  | .cons key v rest, failed, unchecked =>
    if key = "__proto__" then objectLoopE x rest failed unchecked
    else
      match evalE v (getProp x key) with
      | .error e => .error e
      | .ok b => objectLoopE x rest (if !b then true else failed) (unchecked.erase key)

def arrayLoopE (v : VSpec) : List JSValue → Bool → Except String Bool
  | [], failed => .ok failed
  | value :: rest, failed =>
    match evalE v value with
    | .error e => .error e
    | .ok b => arrayLoopE v rest (if !b then true else failed)

def recordLoopE (v : VSpec) : List (String × JSValue) → Bool → Except String Bool
  | [], failed => .ok failed
  | (key, value) :: rest, failed =>
    if key = "__proto__" then recordLoopE v rest failed
    else
      let failedK :=
        if !(«$union» [«$string», «$number», «$symbol»] (.vStr key)) then true
        else failed
      match evalE v value with
      | .error e => .error e
      | .ok b => recordLoopE v rest (if !b then true else failedK)

def tupleLoopE : VList → List JSValue → Bool → Except String Bool
  | .nil, _, failed => .ok failed
  | .cons _ _, [], failed => .ok failed
  | .cons v vrest, value :: erest, failed =>
    match evalE v value with
    | .error e => .error e
    | .ok b => tupleLoopE vrest erest (if !b then true else failed)
end

/-- Head condition of a successful integer-prefix parse: a `0x`/`0X`
prefix must be followed by a hexadecimal digit, and otherwise the list
must begin with a decimal digit; all later characters are irrelevant. -/
def numericCoreSpec : List Char → Bool
  | '0' :: 'x' :: r =>
    match r with
    | c :: _ => isHexDigit16 c
    | [] => false
  | '0' :: 'X' :: r =>
    match r with
    | c :: _ => isHexDigit16 c
    | [] => false
  | c :: _ => isDigit10 c
  | [] => false

/-- The acceptance condition of `$numericString` in the words of the
amended claim: after skipping leading whitespace and at most one sign
character, a `0x`/`0X` prefix must be followed by a hexadecimal digit,
and otherwise the remainder must begin with a decimal digit; all later
characters are irrelevant. -/
def numericStringSpec (s : String) : Bool :=
  numericCoreSpec (stripSign (s.toList.dropWhile jsWhitespace)).2

/-!
Claim theorems.  Each claim of the specification corresponds to exactly
one theorem below (with a witness, a counterexample and an amended
version where applicable).
-/

/-- C1: for all validators `a`, `b` and every value `x`, `$union([a,b])(x)`
equals `a(x) || b(x)` and `$intersection([a,b])(x)` equals `a(x) && b(x)`;
the short-circuit of `$union` on the first accepting validator therefore
never changes the result for these (pure) validators. -/
theorem C1_union_intersection_pair (a b : Validator) (x : JSValue) :
    «$union» [a, b] x = (a x || b x) ∧
      «$intersection» [a, b] x = (a x && b x) := by
  constructor
  · simp only [«$union»]
    rw [unionLoop, unionLoop, unionLoop]
    cases a x <;> cases b x <;> simp
  · simp only [«$intersection»]
    rw [interLoop, interLoop, interLoop]
    cases a x <;> cases b x <;> simp

/-- C3: `$optional(v)` accepts exactly `null`, `undefined`, and whatever
`v` accepts; `$nullable(v)` accepts exactly strict `null` and whatever `v`
accepts, so on `undefined` it coincides with `v` — the two modifiers are
asymmetric. -/
theorem C3_optional_nullable (v : Validator) (x : JSValue) :
    «$optional» v x = (isNull x || isUndefined x || v x) ∧
      «$nullable» v x = (isNull x || v x) ∧
      «$nullable» v JSValue.vUndefined = v JSValue.vUndefined := by
  refine ⟨?_, rfl, rfl⟩
  simp only [«$optional», looseEqNull, Bool.or_assoc]

/-- C9: on the empty validator list, `$union` rejects every value and
`$intersection` accepts every value (the nullary identities of the OR/AND
folds). -/
theorem C9_empty_union_intersection (x : JSValue) :
    «$union» [] x = false ∧ «$intersection» [] x = true :=
  ⟨rfl, rfl⟩

theorem parseIntCore_isSome (m : List Char) :
    (parseIntCore m).isSome = numericCoreSpec m := by
  unfold parseIntCore
  split
  · next rest =>
    cases rest with
    | nil => simp [numericCoreSpec, List.takeWhile]
    | cons c cs =>
      simp only [numericCoreSpec, List.takeWhile]
      cases h : isHexDigit16 c <;> simp [h]
  · next rest =>
    cases rest with
    | nil => simp [numericCoreSpec, List.takeWhile]
    | cons c cs =>
      simp only [numericCoreSpec, List.takeWhile]
      cases h : isHexDigit16 c <;> simp [h]
  · next h1 h2 =>
    unfold numericCoreSpec
    split
    · next r => exact absurd rfl (h1 r)
    · next r => exact absurd rfl (h2 r)
    · next c cs h1' h2' =>
      simp only [List.takeWhile]
      cases h : isDigit10 c <;> simp [h]
    · simp [List.takeWhile]

/-- C5 (counterexample): the claim "every string that begins with a
non-digit character is rejected" is false — `"-5"` begins with `'-'`,
which is not a digit, yet `$numericString` accepts it; and the claim
"every string consisting of a valid integer prefix followed by trailing
non-digit characters is accepted" is false — `"0x"` is the valid integer
prefix `"0"` followed by the non-digit `'x'`, yet it is rejected
(`parseInt("0x")` is NaN). -/
theorem C5_counterexample :
    «$numericString» (JSValue.vStr "-5") = true ∧ isDigit10 '-' = false ∧
      «$numericString» (JSValue.vStr "0x") = false ∧ isDigit10 '0' = true := by
  refine ⟨by decide, by decide, by decide, by decide⟩

/-- C5 (amended): `$numericString` accepts a value iff it is a string
whose integer-prefix parse succeeds — after skipping leading whitespace
and at most one sign character, a `0x`/`0X` prefix must be followed by a
hexadecimal digit and otherwise the remainder must begin with a decimal
digit, trailing characters being ignored; in particular strings whose
first significant character is a letter, such as `"NaN"` and
`"Infinity"`, are rejected, while `"123abc"` is accepted. -/
theorem C5_amended :
    (∀ s : String, «$numericString» (JSValue.vStr s) = numericStringSpec s) ∧
      «$numericString» (JSValue.vStr "123abc") = true ∧
      «$numericString» (JSValue.vStr "NaN") = false ∧
      «$numericString» (JSValue.vStr "Infinity") = false := by
  refine ⟨fun s => ?_, by decide, by decide, by decide⟩
  show (parseIntJS s).isSome = numericStringSpec s
  unfold parseIntJS numericStringSpec
  rcases hsp : stripSign (s.toList.dropWhile jsWhitespace) with ⟨neg, m⟩
  rw [← parseIntCore_isSome m]
  simp only [hsp]
  cases h : parseIntCore m <;> simp [h]
theorem uuidAt_append (l m : List Char) (h : uuidAt l = true) :
    uuidAt (l ++ m) = true := by
  unfold uuidAt at h ⊢
  simp only [Bool.and_eq_true, List.all_eq_true, decide_eq_true_eq] at h ⊢
  obtain ⟨h1, h2⟩ := h
  refine ⟨by simp; omega, fun p hp => ?_⟩
  have hlt : p < l.length := lt_of_lt_of_le (List.mem_range.mp hp) h1
  rw [List.getD_append _ _ _ _ hlt]
  exact h2 p hp

theorem uuidSearch_append_left (a b : List Char) (h : uuidSearch b = true) :
    uuidSearch (a ++ b) = true := by
  induction a with
  | nil => simpa using h
  | cons c a ih =>
    rw [List.cons_append, uuidSearch]
    simp [ih]

/-- C6 (counterexample): the email half of the claim is false — the
email pattern is anchored (`^...$`), so the superstring `"a x@y.z"`,
which contains the fully-matching substring `"x@y.z"`, is rejected by
`$email`. -/
theorem C6_counterexample :
    emailCore "x@y.z" = true ∧
      "a x@y.z" = "a " ++ "x@y.z" ∧
      «$email» (JSValue.vStr "a x@y.z") = false :=
  ⟨by decide, by decide, by decide⟩

/-- C6 (amended): the UUID pattern is unanchored — every superstring of
a string matching the 8-4-4-4-12 shape at its head passes `$uuid`; the
email pattern, however, is anchored at both ends, so any string
containing a whitespace character is rejected by `$email` no matter what
valid-email substring it contains. -/
theorem C6_amended :
    (∀ (pre post s : List Char), uuidAt s = true →
        «$uuid» (JSValue.vStr ⟨pre ++ (s ++ post)⟩) = true) ∧
      (∀ t : String, t.toList.any jsWhitespace = true →
        «$email» (JSValue.vStr t) = false) := by
  constructor
  · intro pre post s h
    show uuidSearch (pre ++ (s ++ post)) = true
    apply uuidSearch_append_left
    cases s with
    | nil => simp [uuidAt] at h
    | cons c rest =>
      rw [List.cons_append, uuidSearch]
      have := uuidAt_append (c :: rest) post h
      rw [List.cons_append] at this
      simp [this]
  · intro t ht
    show emailCore t = false
    rw [List.any_eq_true] at ht
    obtain ⟨c, hc, hwc⟩ := ht
    cases hec : emailCore t with
    | false => rfl
    | true =>
      exfalso
      unfold emailCore at hec
      simp only [List.any_eq_true, List.all_eq_true, Bool.and_eq_true,
        decide_eq_true_eq, beq_iff_eq, List.mem_range] at hec
      obtain ⟨i, hi, j, hj, ⟨⟨⟨⟨hat, hdot⟩, h1i⟩, hij⟩, hjn⟩, hall⟩ := hec
      obtain ⟨p, hp, hgp⟩ := List.mem_iff_getElem.mp hc
      have hpd : t.toList.getD p ' ' = c := by
        rw [List.getD_eq_getElem _ _ hp, hgp]
      have hp2 := hall p hp
      simp only [Bool.or_eq_true, beq_iff_eq] at hp2
      rcases hp2 with heq | hcl
      · rw [heq, hat] at hpd
        subst hpd
        simp [jsWhitespace] at hwc
      · rw [hpd] at hcl
        unfold emailClassChar at hcl
        rw [hwc] at hcl
        simp at hcl
theorem objectLoop_fst (x : JSValue) (shape : List (String × Validator))
    (failed : Bool) (unchecked : List String) :
    (objectLoop x shape failed unchecked).1 =
      (failed ||
        shape.any fun kv => !(kv.1 == "__proto__") && !(kv.2 (getProp x kv.1))) := by
  induction shape generalizing failed unchecked with
  | nil => simp [objectLoop]
  | cons kv rest ih =>
    obtain ⟨key, validator⟩ := kv
    by_cases hk : key = "__proto__"
    · subst hk
      rw [objectLoop, if_pos rfl, ih]
      simp
    · rw [objectLoop, if_neg hk, ih]
      cases h : validator (getProp x key) <;>
        simp [h, hk, Bool.or_assoc]

theorem objectLoop_snd (x : JSValue) (shape : List (String × Validator))
    (failed : Bool) (unchecked : List String) (hu : unchecked.Nodup) :
    (objectLoop x shape failed unchecked).2 =
      unchecked.filter
        (fun k => !(shape.any fun kv => !(kv.1 == "__proto__") && kv.1 == k)) := by
  induction shape generalizing failed unchecked with
  | nil => simp [objectLoop]
  | cons kv rest ih =>
    obtain ⟨key, validator⟩ := kv
    by_cases hk : key = "__proto__"
    · subst hk
      rw [objectLoop, if_pos rfl, ih _ _ hu]
      simp
    · rw [objectLoop, if_neg hk, ih _ _ (hu.erase key), hu.erase_eq_filter,
        List.filter_filter]
      congr 1
      funext k
      by_cases hke : k = key
      · subst hke
        simp [hk]
      · simp only [List.any_cons]
        have : (key == k) = false := by
          simp [Ne.symm hke]
        simp [this, Ne.symm hke, hk]
        exact fun h => hke
/-- C2 (counterexample): the claim quantifies over every shape map, but a
shape whose only declared key is `__proto__` is skipped entirely: the
input `{}` is missing the declared key (its validator `$number` rejects
`undefined`), yet `$object` accepts it under BOTH modes, contradicting
"an input missing a declared required key fails under both modes". -/
theorem C2_counterexample :
    «$object» [("__proto__", «$number»)] false (JSValue.vObject []) = true ∧
      «$object» [("__proto__", «$number»)] true (JSValue.vObject []) = true ∧
      «$number» (getProp (JSValue.vObject []) "__proto__") = false :=
  ⟨by decide, by decide, by decide⟩

/-- C2 (amended): for every shape map and every non-null object input
with distinct own keys, `$object(shape, exact)` accepts iff every
declared key OTHER THAN `__proto__` has its validator accept the
corresponding property (a missing property is validated as `undefined`),
and, when `exact` is true, every own key of the input is among the
declared non-`__proto__` keys; when `exact` is false extra keys are
ignored. -/
theorem C2_amended (shape : List (String × Validator)) (exact : Bool)
    (x : JSValue) (hobj : typeof x = "object") (hnn : looseEqNull x = false)
    (hnd : (objectKeys x).Nodup) :
    «$object» shape exact x = true ↔
      ((∀ kv ∈ shape, kv.1 ≠ "__proto__" → kv.2 (getProp x kv.1) = true) ∧
        (exact = true → ∀ k ∈ objectKeys x,
          ∃ kv ∈ shape, kv.1 ≠ "__proto__" ∧ kv.1 = k)) := by
  have hcond : (typeof x != "object" || looseEqNull x) = false := by
    rw [hobj, hnn]; rfl
  have hany :
      (shape.any fun kv => !(kv.1 == "__proto__") && !(kv.2 (getProp x kv.1)))
          = false ↔
        ∀ kv ∈ shape, kv.1 ≠ "__proto__" → kv.2 (getProp x kv.1) = true := by
    rw [List.any_eq_false]
    refine forall₂_congr fun kv hkv => ?_
    by_cases hp : kv.1 = "__proto__" <;>
      cases hb : kv.2 (getProp x kv.1) <;> simp [hp, hb]
  have hfil :
      (((objectKeys x).filter
          (fun k => !(shape.any fun kv => !(kv.1 == "__proto__") && kv.1 == k))).length
        == 0) = true ↔
      ∀ k ∈ objectKeys x, ∃ kv ∈ shape, kv.1 ≠ "__proto__" ∧ kv.1 = k := by
    rw [beq_iff_eq, List.length_eq_zero, List.filter_eq_nil_iff]
    refine forall₂_congr fun k hk => ?_
    rw [Bool.not_eq_true, Bool.not_eq_false', List.any_eq_true]
    refine exists_congr fun kv => ?_
    by_cases hp : kv.1 = "__proto__" <;> by_cases hke : kv.1 = k <;>
      simp [hp, hke]
  unfold «$object»
  rw [hcond, if_neg (by simp : ¬ (false = true))]
  show ((if (objectLoop x shape false (objectKeys x)).1 = true then false
      else if exact = true
        then (((objectLoop x shape false (objectKeys x)).2.length == 0) : Bool)
        else true) = true) ↔ _
  rw [objectLoop_fst, objectLoop_snd _ _ _ _ hnd]
  simp only [Bool.false_or]
  cases h : (shape.any fun kv => !(kv.1 == "__proto__") && !(kv.2 (getProp x kv.1))) with
  | true =>
    rw [if_pos (by trivial)]
    constructor
    · intro hcontra; cases hcontra
    · rintro ⟨hpass, -⟩
      have hfalse := hany.mpr hpass
      rw [h] at hfalse
      simp at hfalse
  | false =>
    rw [if_neg (by simp)]
    cases exact with
    | false =>
      rw [if_neg (by simp : ¬ (false = true))]
      constructor
      · intro _
        exact ⟨hany.mp h, fun hc => by simp at hc⟩
      · intro _; rfl
    | true =>
      rw [if_pos rfl, hfil]
      constructor
      · intro hk
        exact ⟨hany.mp h, fun _ => hk⟩
      · rintro ⟨-, hex⟩
        exact hex rfl
/-- C2 (witness): the amended theorem applied to the spec's concrete
example — shape `{name: string, age: number}` with input
`{name: "A", age: 1, extra: 1}` and `exact = false`. -/
theorem C2_amended_witness :
    typeof (JSValue.vObject
        [("name", JSValue.vStr "A"), ("age", JSValue.vNum 1),
          ("extra", JSValue.vNum 1)]) = "object" ∧
      looseEqNull (JSValue.vObject
        [("name", JSValue.vStr "A"), ("age", JSValue.vNum 1),
          ("extra", JSValue.vNum 1)]) = false ∧
      (objectKeys (JSValue.vObject
        [("name", JSValue.vStr "A"), ("age", JSValue.vNum 1),
          ("extra", JSValue.vNum 1)])).Nodup ∧
      («$object» [("name", «$string»), ("age", «$number»)] false
          (JSValue.vObject
            [("name", JSValue.vStr "A"), ("age", JSValue.vNum 1),
              ("extra", JSValue.vNum 1)]) = true ↔
        ((∀ kv ∈ [("name", «$string»), ("age", «$number»)],
            kv.1 ≠ "__proto__" → kv.2 (getProp (JSValue.vObject
              [("name", JSValue.vStr "A"), ("age", JSValue.vNum 1),
                ("extra", JSValue.vNum 1)]) kv.1) = true) ∧
          (false = true → ∀ k ∈ objectKeys (JSValue.vObject
              [("name", JSValue.vStr "A"), ("age", JSValue.vNum 1),
                ("extra", JSValue.vNum 1)]),
            ∃ kv ∈ [("name", «$string»), ("age", «$number»)],
              kv.1 ≠ "__proto__" ∧ kv.1 = k))) :=
  ⟨rfl, rfl, by decide,
    C2_amended [("name", «$string»), ("age", «$number»)] false
      (JSValue.vObject
        [("name", JSValue.vStr "A"), ("age", JSValue.vNum 1),
          ("extra", JSValue.vNum 1)]) rfl rfl (by decide)⟩

theorem objectLoop_proto (x : JSValue) (pre post : List (String × Validator))
    (v : Validator) (failed : Bool) (unchecked : List String) :
    objectLoop x (pre ++ ("__proto__", v) :: post) failed unchecked =
      objectLoop x (pre ++ post) failed unchecked := by
  induction pre generalizing failed unchecked with
  | nil =>
    rw [List.nil_append, List.nil_append, objectLoop, if_pos rfl]
  | cons kv rest ih =>
    obtain ⟨k, w⟩ := kv
    by_cases hk : k = "__proto__"
    · rw [List.cons_append, objectLoop, if_pos hk, List.cons_append,
        objectLoop, if_pos hk, ih]
    · rw [List.cons_append, objectLoop, if_neg hk, List.cons_append,
        objectLoop, if_neg hk, ih]

theorem recordLoop_proto (kv vv : Validator)
    (pre post : List (String × JSValue)) (w : JSValue) (failed : Bool) :
    recordLoop kv vv (pre ++ ("__proto__", w) :: post) failed =
      recordLoop kv vv (pre ++ post) failed := by
  induction pre generalizing failed with
  | nil =>
    rw [List.nil_append, List.nil_append, recordLoop, if_pos rfl]
  | cons e rest ih =>
    obtain ⟨k, u⟩ := e
    by_cases hk : k = "__proto__"
    · rw [List.cons_append, recordLoop, if_pos hk, List.cons_append,
        recordLoop, if_pos hk, ih]
    · rw [List.cons_append, recordLoop, if_neg hk, List.cons_append,
        recordLoop, if_neg hk, ih]

/-- C7: the key literally named `__proto__` is always skipped — a shape
entry named `__proto__` can be removed from the shape (its validator is
never applied) without changing `$object`, and an own input entry named
`__proto__` can be removed from the input (neither the key-kind check nor
the value check runs on it) without changing `$record`. -/
theorem C7_proto_always_skipped :
    (∀ (pre post : List (String × Validator)) (v : Validator) (exact : Bool)
        (x : JSValue),
      «$object» (pre ++ ("__proto__", v) :: post) exact x =
        «$object» (pre ++ post) exact x) ∧
      (∀ (vv : Validator) (pre post : List (String × JSValue)) (w : JSValue),
        «$record» vv (JSValue.vObject (pre ++ ("__proto__", w) :: post)) =
          «$record» vv (JSValue.vObject (pre ++ post))) := by
  constructor
  · intro pre post v exact x
    simp only [«$object», objectLoop_proto]
  · intro vv pre post w
    simp only [«$record», objectEntries, recordLoop_proto]
    rfl

theorem objectLoop_proto_mem (x : JSValue) (shape : List (String × Validator))
    (failed : Bool) (unchecked : List String)
    (hu : "__proto__" ∈ unchecked) :
    "__proto__" ∈ (objectLoop x shape failed unchecked).2 := by
  induction shape generalizing failed unchecked with
  | nil => exact hu
  | cons kv rest ih =>
    obtain ⟨k, v⟩ := kv
    by_cases hk : k = "__proto__"
    · rw [objectLoop, if_pos hk]
      exact ih _ _ hu
    · rw [objectLoop, if_neg hk]
      exact ih _ _ ((List.mem_erase_of_ne (fun h => hk h.symm)).mpr hu)

/-- C8: when the shape map contains the key `__proto__` and `exact` is
true, every input that has `__proto__` among its own enumerable keys is
rejected: the skipped shape key never removes `__proto__` from the
unchecked-key set, so it always counts as an extra key. -/
theorem C8_proto_exact_reject (shape : List (String × Validator))
    (x : JSValue) (hsh : "__proto__" ∈ shape.map Prod.fst)
    (hx : "__proto__" ∈ objectKeys x) :
    «$object» shape true x = false := by
  have hcond : (typeof x != "object" || looseEqNull x) = false := by
    cases x <;>
      simp [objectKeys, objectEntries, typeof, looseEqNull, isNull,
        isUndefined] at hx ⊢
  have hmem : "__proto__" ∈ (objectLoop x shape false (objectKeys x)).2 :=
    objectLoop_proto_mem x shape false (objectKeys x) hx
  unfold «$object»
  rw [hcond, if_neg (by simp : ¬ (false = true))]
  show (if (objectLoop x shape false (objectKeys x)).1 = true then false
      else if true = true
        then (((objectLoop x shape false (objectKeys x)).2.length == 0) : Bool)
        else true) = false
  cases hst : (objectLoop x shape false (objectKeys x)).1 with
  | true => rw [if_pos rfl]
  | false =>
    rw [if_neg (by simp), if_pos rfl]
    have : (objectLoop x shape false (objectKeys x)).2 ≠ [] :=
      List.ne_nil_of_mem hmem
    simp [List.length_eq_zero, this]

/-- C8 (witness): concrete instance of the rejection. -/
theorem C8_witness :
    "__proto__" ∈ ([("__proto__", «$any»)].map
        (Prod.fst : String × Validator → String)) ∧
      "__proto__" ∈ objectKeys (JSValue.vObject [("__proto__", JSValue.vNum 1)]) ∧
      «$object» [("__proto__", «$any»)] true
        (JSValue.vObject [("__proto__", JSValue.vNum 1)]) = false :=
  ⟨by decide, by decide,
    C8_proto_exact_reject [("__proto__", «$any»)]
      (JSValue.vObject [("__proto__", JSValue.vNum 1)]) (by decide) (by decide)⟩
theorem arrayEntriesFrom_snd_mem (l : List JSValue) (i : Nat)
    (kv : String × JSValue) (h : kv ∈ arrayEntriesFrom i l) : kv.2 ∈ l := by
  induction l generalizing i with
  | nil => cases h
  | cons e rest ih =>
    rw [arrayEntriesFrom] at h
    rcases List.mem_cons.mp h with heq | hmem
    · subst heq; exact List.mem_cons_self _ _
    · exact List.mem_cons_of_mem _ (ih _ hmem)

theorem recordLoop_all_pass (vv : Validator)
    (entries : List (String × JSValue)) (failed : Bool)
    (h : ∀ kv ∈ entries, vv kv.2 = true) :
    recordLoop («$union» [«$string», «$number», «$symbol»]) vv entries failed
      = failed := by
  induction entries generalizing failed with
  | nil => rfl
  | cons kv rest ih =>
    obtain ⟨k, v⟩ := kv
    by_cases hk : k = "__proto__"
    · rw [recordLoop, if_pos hk]
      exact ih _ fun e he => h e (List.mem_cons_of_mem _ he)
    · rw [recordLoop, if_neg hk]
      have hkey : «$union» [«$string», «$number», «$symbol»] (JSValue.vStr k)
          = true := rfl
      have hval : vv v = true := h (k, v) (List.mem_cons_self _ _)
      rw [hkey, hval]
      show recordLoop _ vv rest failed = failed
      exact ih _ fun e he => h e (List.mem_cons_of_mem _ he)

/-- C10: arrays pass the composite-kind check of `$object` and `$record`:
an array all of whose elements satisfy the value validator passes
`$record` (its index keys pass the key-kind check), in particular
`$record($number)([1,2])`, and every array passes `$object({}, false)`. -/
theorem C10_arrays_pass :
    (∀ (vv : Validator) (l : List JSValue), (∀ e ∈ l, vv e = true) →
        «$record» vv (JSValue.vArray l) = true) ∧
      «$record» «$number» (JSValue.vArray [JSValue.vNum 1, JSValue.vNum 2])
        = true ∧
      (∀ l : List JSValue, «$object» [] false (JSValue.vArray l) = true) := by
  refine ⟨fun vv l h => ?_, by decide, fun l => rfl⟩
  show (if (typeof (JSValue.vArray l) != "object" || isNull (JSValue.vArray l))
          = true then false
      else !(recordLoop («$union» [«$string», «$number», «$symbol»]) vv
        (objectEntries (JSValue.vArray l)) false)) = true
  rw [if_neg (by simp [typeof, isNull])]
  rw [show objectEntries (JSValue.vArray l) = arrayEntriesFrom 0 l from rfl]
  rw [recordLoop_all_pass vv _ false
    (fun kv hkv => h kv.2 (arrayEntriesFrom_snd_mem l 0 kv hkv))]
  rfl

/-- C10 (witness): concrete instance discharging the all-elements
hypothesis. -/
theorem C10_witness :
    (∀ e ∈ [JSValue.vNum 3, JSValue.vNum 4], «$number» e = true) ∧
      «$record» «$number» (JSValue.vArray [JSValue.vNum 3, JSValue.vNum 4])
        = true :=
  ⟨by decide,
    C10_arrays_pass.1 «$number» [JSValue.vNum 3, JSValue.vNum 4] (by decide)⟩
theorem evalList_length : ∀ (vs : VList), (evalList vs).length = vlen vs
  | .nil => by simp [evalList, vlen]
  | .cons v rest => by simp [evalList, vlen, evalList_length rest]

mutual
theorem evalE_ok : ∀ (v : VSpec) (x : JSValue), evalE v x = Except.ok (eval v x)
  | .const d, x => by simp [evalE, eval]
  | .number, x => by simp [evalE, eval]
  | .numberRange mn mx, x => by simp [evalE, eval]
  | .string, x => by simp [evalE, eval]
  | .numericString, x => by simp [evalE, eval]
  | .null, x => by simp [evalE, eval]
  | .undef, x => by simp [evalE, eval]
  | .any, x => by simp [evalE, eval]
  | .optional v, x => by
    cases h : looseEqNull x <;>
      simp [evalE, eval, h, evalE_ok v x]
  | .nullable v, x => by
    cases h : «$null» x <;>
      simp [evalE, eval, h, evalE_ok v x]
  | .email, x => by simp [evalE, eval]
  | .uuid, x => by simp [evalE, eval]
  | .url, x => by
    cases x with
    | vStr s =>
      simp only [evalE, eval, «$url»]
      cases hp : parseURL s <;> simp [hp]
    | _ => simp [evalE, eval, «$url»]
  | .symbol, x => by simp [evalE, eval]
  | .bigint, x => by simp [evalE, eval]
  | .boolean, x => by simp [evalE, eval]
  | .enum es, x => by simp [evalE, eval]
  | .intersection vs, x => by
    rw [evalE, interLoopE_ok vs x false]
    simp [eval, «$intersection»]
  | .union vs, x => by
    rw [evalE, unionLoopE_ok vs x]
    simp [eval, «$union»]
  | .object sh ex, x => by
    rw [evalE, eval]
    by_cases h : (typeof x != "object" || looseEqNull x) = true
    · rw [if_pos h]
      show _ = Except.ok («$object» (evalShape sh) ex x)
      unfold «$object»
      rw [if_pos h]
    · rw [if_neg h, objectLoopE_ok x sh false (objectKeys x)]
      show _ = Except.ok («$object» (evalShape sh) ex x)
      unfold «$object»
      rw [if_neg h]
      cases hst : (objectLoop x (evalShape sh) false (objectKeys x)).1 <;>
        cases ex <;> simp [hst]
  | .array v, x => by
    cases x with
    | vArray elems =>
      rw [evalE, arrayLoopE_ok v elems false]
      simp [eval, «$array»]
    | _ =>
      simp only [evalE, eval]
      rfl
  | .arrayLength mn mx v, x => by
    cases x with
    | vArray elems =>
      simp only [evalE]
      rw [arrayLoopE_ok v elems false]
      simp only [eval]
      rfl
    | _ =>
      simp only [evalE, eval]
      rfl
  | .record v, x => by
    rw [evalE, eval]
    by_cases h : (typeof x != "object" || isNull x) = true
    · rw [if_pos h]
      show _ = Except.ok («$record» (eval v) x)
      unfold «$record»
      rw [if_pos h]
    · rw [if_neg h, recordLoopE_ok v (objectEntries x) false]
      show _ = Except.ok («$record» (eval v) x)
      unfold «$record»
      rw [if_neg h]
  | .tuple vs, x => by
    cases x with
    | vArray elems =>
      simp only [evalE, eval]
      by_cases h : elems.length = vlen vs
      · rw [if_neg (not_not_intro h), tupleLoopE_ok vs elems false]
        show Except.ok (!(tupleLoop ((evalList vs).zip elems) false)) =
          Except.ok (if elems.length ≠ (evalList vs).length then false
            else !(tupleLoop ((evalList vs).zip elems) false))
        rw [if_neg (not_not_intro (by rw [evalList_length]; exact h))]
      · rw [if_pos h]
        show Except.ok false =
          Except.ok (if elems.length ≠ (evalList vs).length then false
            else !(tupleLoop ((evalList vs).zip elems) false))
        rw [if_pos (by rw [evalList_length]; exact h)]
    | _ =>
      simp only [evalE, eval]
      rfl

theorem unionLoopE_ok : ∀ (vs : VList) (x : JSValue),
    unionLoopE vs x = Except.ok (unionLoop x (evalList vs))
  | .nil, x => by simp [unionLoopE, evalList, unionLoop]
  | .cons v rest, x => by
    rw [unionLoopE, evalE_ok v x]
    cases h : eval v x <;>
      simp [evalList, unionLoop, h, unionLoopE_ok rest x]

theorem interLoopE_ok : ∀ (vs : VList) (x : JSValue) (failed : Bool),
    interLoopE vs x failed = Except.ok (interLoop x (evalList vs) failed)
  | .nil, x, failed => by simp [interLoopE, evalList, interLoop]
  | .cons v rest, x, failed => by
    rw [interLoopE, evalE_ok v x]
    cases h : eval v x <;>
      simp [evalList, interLoop, h, interLoopE_ok rest x]

theorem objectLoopE_ok : ∀ (x : JSValue) (sh : VShape) (failed : Bool)
    (unchecked : List String),
    objectLoopE x sh failed unchecked =
      Except.ok (objectLoop x (evalShape sh) failed unchecked)
  | x, .nil, failed, unchecked => by
    simp [objectLoopE, evalShape, objectLoop]
  | x, .cons key v rest, failed, unchecked => by
    by_cases hk : key = "__proto__"
    · rw [objectLoopE, if_pos hk, evalShape, objectLoop, if_pos hk,
        objectLoopE_ok x rest failed unchecked]
    · rw [objectLoopE, if_neg hk, evalE_ok v (getProp x key), evalShape,
        objectLoop, if_neg hk]
      cases h : eval v (getProp x key) <;>
        simp [h, objectLoopE_ok x rest]

theorem arrayLoopE_ok : ∀ (v : VSpec) (elems : List JSValue) (failed : Bool),
    arrayLoopE v elems failed =
      Except.ok (arrayLoop (eval v) elems failed)
  | v, [], failed => by simp [arrayLoopE, arrayLoop]
  | v, e :: rest, failed => by
    rw [arrayLoopE, evalE_ok v e]
    cases h : eval v e <;>
      simp [arrayLoop, h, arrayLoopE_ok v rest]

theorem recordLoopE_ok : ∀ (v : VSpec) (entries : List (String × JSValue))
    (failed : Bool),
    recordLoopE v entries failed =
      Except.ok (recordLoop («$union» [«$string», «$number», «$symbol»])
        (eval v) entries failed)
  | v, [], failed => by simp [recordLoopE, recordLoop]
  | v, (key, value) :: rest, failed => by
    by_cases hk : key = "__proto__"
    · rw [recordLoopE, if_pos hk, recordLoop, if_pos hk,
        recordLoopE_ok v rest failed]
    · rw [recordLoopE, if_neg hk, evalE_ok v value, recordLoop, if_neg hk]
      cases h : eval v value <;>
        simp [h, recordLoopE_ok v rest]

theorem tupleLoopE_ok : ∀ (vs : VList) (elems : List JSValue) (failed : Bool),
    tupleLoopE vs elems failed =
      Except.ok (tupleLoop ((evalList vs).zip elems) failed)
  | .nil, elems, failed => by simp [tupleLoopE, evalList, tupleLoop]
  | .cons v rest, [], failed => by simp [tupleLoopE, evalList, tupleLoop]
  | .cons v rest, e :: erest, failed => by
    rw [tupleLoopE, evalE_ok v e]
    cases h : eval v e <;>
      simp [evalList, tupleLoop, h, tupleLoopE_ok rest erest, List.zip]
end

/-- C4: every validator of the deeply-embedded library is total — under
the exception-channel semantics `evalE`, evaluation always returns an
ordinary boolean result (`Except.ok`) and never propagates an exception
for any input value; in particular the `url` validator catches the
URL-parse failure locally and returns `false` instead of propagating it. -/
theorem C4_totality :
    (∀ (v : VSpec) (x : JSValue), evalE v x = Except.ok (eval v x)) ∧
      (∀ (s e : String), parseURL s = Except.error e →
        eval VSpec.url (JSValue.vStr s) = false ∧
          evalE VSpec.url (JSValue.vStr s) = Except.ok false) := by
  refine ⟨evalE_ok, fun s e h => ⟨?_, ?_⟩⟩
  · simp [eval, «$url», h]
  · simp [evalE, h]

/-- C4 (witness): the totality theorem applied to the concrete failing
URL input of the repository's test-suite. -/
theorem C4_witness :
    parseURL "not-a-url" = Except.error "Invalid URL" ∧
      eval VSpec.url (JSValue.vStr "not-a-url") = false ∧
      evalE VSpec.url (JSValue.vStr "not-a-url") = Except.ok false :=
  ⟨rfl, (C4_totality.2 "not-a-url" "Invalid URL" rfl).1,
    (C4_totality.2 "not-a-url" "Invalid URL" rfl).2⟩

/-- C6 (witness): the amended theorem applied to a concrete UUID
superstring and a concrete whitespace-containing email superstring. -/
theorem C6_witness :
    uuidAt "123e4567-e89b-12d3-a456-426614174000".toList = true ∧
      «$uuid» (JSValue.vStr
        ⟨"xx".toList ++
          ("123e4567-e89b-12d3-a456-426614174000".toList ++ "yy".toList)⟩)
        = true ∧
      "a x@y.z".toList.any jsWhitespace = true ∧
      «$email» (JSValue.vStr "a x@y.z") = false :=
  ⟨by decide,
    C6_amended.1 "xx".toList "yy".toList
      "123e4567-e89b-12d3-a456-426614174000".toList (by decide),
    by decide,
    C6_amended.2 "a x@y.z" (by decide)⟩
